import Mathlib

/-
Verification of the adaptive rock-paper-scissors opponent core of the
rpsnn repository (App.tsx and its older width-3 variant).

The embedding translates the TypeScript source directly:
  - enum Choice / enum Outcome / winsOver / choice selection loop in play
  - play(network, playerChoice): reads network.probs(), runs the greedy
    arg-max loop, calls network.backward(winsOver(playerChoice), 0.1),
    builds the width-6 one-hot input, calls network.forward(input),
    returns the selected choice
  - class Game with the derived outcome getter
  - the App component state: games history list and an optional network
    (undefined until the async module load resolves), with playGame
    calling play(network!, playerChoice) and appending a Game
JavaScript numeric comparison semantics relevant to the selection loop
(NaN and undefined compare false, Infinity compares as an extended
number) are modelled by the JsNum type; finite doubles are modelled as
rationals, which preserves order and equality of the finite values the
claims mention.
-/

namespace Rpsnn

/-- enum Choice { ROCK = 0, PAPER = 1, SCISSORS = 2 } -/
inductive Choice where
  | ROCK
  | PAPER
  | SCISSORS
deriving DecidableEq, Repr, Fintype

/-- The numeric index of a Choice, per the TypeScript enum values. -/
def Choice.toNat : Choice → Nat
  | .ROCK => 0
  | .PAPER => 1
  | .SCISSORS => 2

/-- Conversion of a loop index back to Choice (the source assigns the raw
loop index i to computerChoice; only 0, 1, 2 are reachable). -/
def Choice.ofIndex : Nat → Choice
  | 0 => .ROCK
  | 1 => .PAPER
  | _ => .SCISSORS

/-- enum Outcome { Player, Computer, Draw } -/
inductive Outcome where
  | Player
  | Computer
  | Draw
deriving DecidableEq, Repr, Fintype

/-- function winsOver(choice): ROCK -> PAPER, PAPER -> SCISSORS,
SCISSORS -> ROCK. -/
def winsOver : Choice → Choice
  | .ROCK => .PAPER
  | .PAPER => .SCISSORS
  | .SCISSORS => .ROCK

/-- A JavaScript numeric value as seen by the selection loop: a finite
double (modelled as a rational), NaN, the two infinities, or the
undefined produced by an out-of-bounds array read. -/
inductive JsNum where
  | num (q : ℚ)
  | nan
  | inf
  | negInf
  | undefined
deriving DecidableEq, Repr

/-- JavaScript strict greater-than on these values: any comparison
involving NaN or undefined is false; infinities compare as extended
numbers; finite values compare as rationals. -/
def jsGt : JsNum → JsNum → Bool
  | .num a, .num b => decide (b < a)
  | .num _, .negInf => true
  | .inf, .num _ => true
  | .inf, .negInf => true
  | _, _ => false

/-- Whether a JsNum is a finite number (Number.isFinite). -/
def isJsFinite : JsNum → Bool
  | .num _ => true
  | _ => false

/-- JavaScript indexing probs[i]: out-of-bounds reads yield undefined. -/
def probsGet (probs : List JsNum) (i : Nat) : JsNum :=
  (probs.get? i).getD .undefined

/-- The greedy selection loop of play (App.tsx):
  let computerChoice = Choice.ROCK
  for (let i = 1; i < 3; i++)
    if (probs[i] > probs[computerChoice]) computerChoice = i
returning the final index. -/
def selectIndex (probs : List JsNum) : Nat :=
  (List.range' 1 2).foldl
    (fun best i => if jsGt (probsGet probs i) (probsGet probs best) then i else best) 0

/-- The Selection Policy: the loop result as a Choice. -/
def select (probs : List JsNum) : Choice :=
  Choice.ofIndex (selectIndex probs)

/-- The width-6 encoded input of play (App.tsx):
  const input = new Float32Array(6).fill(0)
  input[playerChoice] = 1
  input[3 + computerChoice] = 1 -/
def encode6 (playerChoice computerChoice : Choice) : List ℚ :=
  (((List.replicate 6 (0 : ℚ)).set playerChoice.toNat 1).set (3 + computerChoice.toNat) 1)

/-- The width-3 encoded input of the older App variant:
  const input = new Float32Array(3).fill(0)
  input[playerChoice] = 1 -/
def encode3 (playerChoice : Choice) : List ℚ :=
  ((List.replicate 3 (0 : ℚ)).set playerChoice.toNat 1)

/-- class Game { playerChoice, computerChoice } -/
structure Game where
  playerChoice : Choice
  computerChoice : Choice
deriving DecidableEq, Repr

/-- The derived outcome getter of class Game. -/
def Game.outcome (g : Game) : Outcome :=
  if winsOver g.playerChoice = g.computerChoice then .Computer
  else if winsOver g.computerChoice = g.playerChoice then .Player
  else .Draw

/-- An event observable at the network boundary: a probs() read, a
backward(target, learningRate) call, or a forward(input) call. -/
inductive NetEvent where
  | probsCall
  | backwardCall (target : Choice) (learningRate : ℚ)
  | forwardCall (input : List ℚ)
deriving DecidableEq, Repr

/-- Whether an event is one of the two training-relevant calls
(backward or forward), as observed by an instrumented network stub. -/
def isTrainingCall : NetEvent → Bool
  | .backwardCall _ _ => true
  | .forwardCall _ => true
  | _ => false

/-- The opaque RPSNetwork collaborator, as the interface the core calls:
probs() reads the current output vector, backward(target, lr) and
forward(input) update the opaque state. -/
structure Network (σ : Type) where
  probs : σ → List JsNum
  backward : σ → Choice → ℚ → σ
  forward : σ → List ℚ → σ

/-- function play(network, playerChoice) of App.tsx, with the sequence
of network-boundary events it issues recorded alongside the returned
computerChoice and the final network state:
  const probs = network.probs()
  (greedy selection loop over probs)
  network.backward(winsOver(playerChoice), 0.1)
  (build width-6 one-hot input from playerChoice and computerChoice)
  network.forward(input)
  return computerChoice -/
def play {σ : Type} (N : Network σ) (s : σ) (playerChoice : Choice) :
    Choice × σ × List NetEvent :=
  let probs := N.probs s
  let computerChoice := select probs
  let s1 := N.backward s (winsOver playerChoice) (1 / 10)
  let input := encode6 playerChoice computerChoice
  let s2 := N.forward s1 input
  (computerChoice, s2,
    [NetEvent.probsCall,
     NetEvent.backwardCall (winsOver playerChoice) (1 / 10),
     NetEvent.forwardCall input])

/-- A JavaScript runtime error raised inside a play-action. -/
inductive JsError where
  | undefinedMethodCall
deriving DecidableEq, Repr

/-- The playGame callback of App: the network state is Option σ (the
useState hook starts as undefined until the async module load resolves;
this is the AwaitingNetwork state). With no network, play(network!,
playerChoice) dereferences undefined and network.probs() throws before
any network call; setGames is never reached. Otherwise one play-action
runs and the new Game is appended to the games history. -/
def playGame {σ : Type} (N : Network σ) (games : List Game) (net : Option σ)
    (playerChoice : Choice) :
    Except JsError (List Game × σ × List NetEvent) :=
  match net with
  | none => .error .undefinedMethodCall
  | some s =>
    let r := play N s playerChoice
    .ok (games ++ [Game.mk playerChoice r.1], r.2.1, r.2.2)

/-- The games history after a playGame result: unchanged when the call
threw, the appended list when it succeeded. -/
def gamesAfter (games : List Game) {σ : Type}
    (r : Except JsError (List Game × σ × List NetEvent)) : List Game :=
  match r with
  | .error _ => games
  | .ok (gs, _, _) => gs

/-- The network-boundary events a playGame call issued: none when the
call threw before reaching the network. -/
def eventsOf {σ : Type}
    (r : Except JsError (List Game × σ × List NetEvent)) : List NetEvent :=
  match r with
  | .error _ => []
  | .ok (_, _, tr) => tr

/-- A run of consecutive accepted play-actions in the Ready state:
each submitted player choice runs play on the threaded network state and
appends the resulting Game to the history. -/
def runPlays {σ : Type} (N : Network σ) : σ → List Game → List Choice → List Game × σ
  | s, games, [] => (games, s)
  | s, games, p :: ps =>
    let r := play N s p
    runPlays N r.2.1 (games ++ [Game.mk p r.1]) ps

/-- A concrete network model used to exhibit behaviours: the state is
the probs vector itself; backward leaves it unchanged and forward
replaces it with the fixed vector [0, 1, 0]. -/
def demoNet : Network (List JsNum) where
  probs := fun s => s
  backward := fun s _ _ => s
  forward := fun _ _ => [JsNum.num 0, JsNum.num 1, JsNum.num 0]

/-- Modelled from the spec (section 4.2): the smallest index attaining
the maximum value of a three-entry vector, as a Choice. Used to compare
the selection loop of the source against the arg-max wording. -/
def argmaxLowest (a b c : ℚ) : Choice :=
  if a = max a (max b c) then .ROCK
  else if b = max a (max b c) then .PAPER
  else .SCISSORS

/-- Modelled from the spec (section 8): the cyclic dominance relation
ROCK beats SCISSORS, PAPER beats ROCK, SCISSORS beats PAPER. -/
def beatsCyclic : Choice → Choice → Bool
  | .ROCK, .SCISSORS => true
  | .PAPER, .ROCK => true
  | .SCISSORS, .PAPER => true
  | _, _ => false

/-- Modelled from the spec (section 8): the outcome dictated by cyclic
dominance — a draw on equal choices, the player wins when the player
choice beats the computer choice, the computer wins otherwise. -/
def outcomeCyclicSpec (p c : Choice) : Outcome :=
  if p = c then .Draw
  else if beatsCyclic p c then .Player
  else .Computer

/-- The selection loop on a three-entry finite vector, reduced to its
two comparisons: index 1 replaces index 0 only when strictly greater,
then index 2 replaces the current best only when strictly greater. -/
theorem select3_cases (a b c : ℚ) :
    select [JsNum.num a, JsNum.num b, JsNum.num c] =
      if a < b then (if b < c then Choice.SCISSORS else Choice.PAPER)
      else (if a < c then Choice.SCISSORS else Choice.ROCK) := by
  by_cases h1 : a < b <;> by_cases h2 : b < c <;> by_cases h3 : a < c <;>
    simp [select, selectIndex, probsGet, jsGt, List.range', Choice.ofIndex, h1, h2, h3]

/-- The selection loop agrees with the lowest-index arg-max on every
three-entry finite vector. -/
theorem select3_argmax (a b c : ℚ) :
    select [JsNum.num a, JsNum.num b, JsNum.num c] = argmaxLowest a b c := by
  rw [select3_cases]
  rcases lt_or_le a b with h1 | h1
  · rcases lt_or_le b c with h2 | h2
    · have hm : max a (max b c) = c := by
        rw [max_eq_right h2.le, max_eq_right (h1.trans h2).le]
      rw [if_pos h1, if_pos h2, argmaxLowest, hm,
        if_neg (ne_of_lt (h1.trans h2)), if_neg (ne_of_lt h2)]
    · have hm : max a (max b c) = b := by
        rw [max_eq_left h2, max_eq_right h1.le]
      rw [if_pos h1, if_neg (not_lt.mpr h2), argmaxLowest, hm,
        if_neg (ne_of_lt h1), if_pos rfl]
  · rcases lt_or_le a c with h2 | h2
    · have hm : max a (max b c) = c := by
        rw [max_eq_right (h1.trans h2.le), max_eq_right h2.le]
      rw [if_neg (not_lt.mpr h1), if_pos h2, argmaxLowest, hm,
        if_neg (ne_of_lt h2), if_neg (ne_of_lt (lt_of_le_of_lt h1 h2))]
    · have hm : max a (max b c) = a := by
        rw [max_eq_left (max_le h1 h2)]
      rw [if_neg (not_lt.mpr h1), if_neg (not_lt.mpr h2), argmaxLowest, hm, if_pos rfl]

/-- The selection loop reduced to its two executed comparisons on an
arbitrary probs array: index 1 replaces index 0 only when the first
comparison is true, then index 2 replaces the current best only when
the second comparison is true. -/
theorem selectIndex_eq (probs : List JsNum) :
    selectIndex probs =
      if jsGt (probsGet probs 1) (probsGet probs 0) then
        (if jsGt (probsGet probs 2) (probsGet probs 1) then 2 else 1)
      else
        (if jsGt (probsGet probs 2) (probsGet probs 0) then 2 else 0) := by
  by_cases h1 : jsGt (probsGet probs 1) (probsGet probs 0) <;>
    simp [selectIndex, List.range', h1]

/-- C1: the selection policy is greedy arg-max with lowest-index
tie-break — on every three-entry finite vector the selected Choice is
the smallest index attaining the maximum value; in particular
[0.5, 0.5, 0.5] selects ROCK, [0.3, 0.3, 0.9] selects SCISSORS and
[0.1, 0.7, 0.7] selects PAPER. -/
theorem claim_C1_greedy_argmax_selection :
    (∀ a b c : ℚ, select [JsNum.num a, JsNum.num b, JsNum.num c] = argmaxLowest a b c) ∧
    select [JsNum.num (mkRat 1 2), JsNum.num (mkRat 1 2), JsNum.num (mkRat 1 2)] =
      Choice.ROCK ∧
    select [JsNum.num (mkRat 3 10), JsNum.num (mkRat 3 10), JsNum.num (mkRat 9 10)] =
      Choice.SCISSORS ∧
    select [JsNum.num (mkRat 1 10), JsNum.num (mkRat 7 10), JsNum.num (mkRat 7 10)] =
      Choice.PAPER :=
  ⟨select3_argmax, by decide, by decide, by decide⟩

/-- C3: the outcome of a Round is a pure function of the two choices
matching the cyclic dominance ROCK beats SCISSORS, PAPER beats ROCK,
SCISSORS beats PAPER, exhaustively over all 9 pairs; in particular
Game(ROCK, SCISSORS) is a player win, Game(ROCK, PAPER) a computer win
and Game(ROCK, ROCK) a draw. -/
theorem claim_C3_outcome_matches_cyclic_dominance :
    (∀ p c : Choice, Game.outcome (Game.mk p c) = outcomeCyclicSpec p c) ∧
    Game.outcome (Game.mk Choice.ROCK Choice.SCISSORS) = Outcome.Player ∧
    Game.outcome (Game.mk Choice.ROCK Choice.PAPER) = Outcome.Computer ∧
    Game.outcome (Game.mk Choice.ROCK Choice.ROCK) = Outcome.Draw :=
  ⟨by decide, by decide, by decide, by decide⟩

/-- C10: winsOver is a fixpoint-free cyclic permutation of Choice (no
choice beats itself and three applications return to the start), and no
pair of choices beats each other both ways, so the Computer-wins and
Player-wins conditions of Game.outcome are mutually exclusive. -/
theorem claim_C10_winsOver_cyclic_permutation :
    (∀ c : Choice, winsOver c ≠ c ∧ winsOver (winsOver (winsOver c)) = c) ∧
    (∀ p c : Choice, ¬(winsOver p = c ∧ winsOver c = p)) := by
  decide

/-- C8: the move encoder is one-hot for its configured layout — the
extended width-6 layout has exactly the positions playerChoice and
3 + computerChoice set to 1 and all others 0, the minimal width-3
layout has exactly the position playerChoice set to 1 and all others 0,
for every pair of Choices, with no normalization. -/
theorem claim_C8_one_hot_encoding :
    ∀ p c : Choice,
      (encode6 p c).length = 6 ∧
      (∀ i : Fin 6, (encode6 p c).getD i.val 0 =
        if i.val = p.toNat ∨ i.val = 3 + c.toNat then 1 else 0) ∧
      (encode3 p).length = 3 ∧
      (∀ i : Fin 3, (encode3 p).getD i.val 0 =
        if i.val = p.toNat then 1 else 0) := by
  decide

/-- C2 counterexample: with a network whose stored output before the
play-action selects SCISSORS and whose forward pass stores an output
selecting PAPER, the computerChoice recorded by the play-action is
SCISSORS, while the selection applied to the probability vector
produced by the forward pass performed within that same play-action is
PAPER — so the recorded choice is not the selection of that vector. -/
theorem claim_C2_counterexample :
    (play demoNet [JsNum.num 0, JsNum.num 0, JsNum.num 1] Choice.ROCK).1 =
      Choice.SCISSORS ∧
    select (demoNet.probs
      (play demoNet [JsNum.num 0, JsNum.num 0, JsNum.num 1] Choice.ROCK).2.1) =
      Choice.PAPER ∧
    (play demoNet [JsNum.num 0, JsNum.num 0, JsNum.num 1] Choice.ROCK).1 ≠
      select (demoNet.probs
        (play demoNet [JsNum.num 0, JsNum.num 0, JsNum.num 1] Choice.ROCK).2.1) := by
  refine ⟨by decide, by decide, by decide⟩

/-- C2 amended: in every play-action the selection is applied first, to
the probability vector read from the network at entry (the one produced
by the previous forward pass, before the training update of this round);
then backward(winsOver(playerChoice), 0.1) runs, then the width-6 input
is encoded from playerChoice and the just-selected computerChoice, then
forward runs on it — the forward pass inside the play-action only
produces the vector a later selection will use. -/
theorem claim_C2_amended_selection_precedes_training (σ : Type)
    (N : Network σ) (s : σ) (p : Choice) :
    (play N s p).1 = select (N.probs s) ∧
    (play N s p).2.2 =
      [NetEvent.probsCall,
       NetEvent.backwardCall (winsOver p) (1 / 10),
       NetEvent.forwardCall (encode6 p (select (N.probs s)))] ∧
    (play N s p).2.1 =
      N.forward (N.backward s (winsOver p) (1 / 10)) (encode6 p (select (N.probs s))) :=
  ⟨rfl, rfl, rfl⟩

/-- C4: every play-action issues exactly one backward call followed by
exactly one forward call, in that order, with backward target
winsOver(playerChoice) and the fixed learning rate 0.1, uniformly for
every network state and every round. -/
theorem claim_C4_one_backward_then_one_forward (σ : Type)
    (N : Network σ) (s : σ) (p : Choice) :
    ((play N s p).2.2).filter isTrainingCall =
      [NetEvent.backwardCall (winsOver p) (1 / 10),
       NetEvent.forwardCall (encode6 p (select (N.probs s)))] :=
  rfl

/-- C5 counterexample: on the empty probs array (fewer than 3 entries)
and on an all-NaN array (non-finite values) the selection loop does not
fail — it silently returns ROCK. -/
theorem claim_C5_counterexample :
    ([] : List JsNum).length < 3 ∧
    select [] = Choice.ROCK ∧
    isJsFinite JsNum.nan = false ∧
    select [JsNum.nan, JsNum.nan, JsNum.nan] = Choice.ROCK := by
  decide

/-- C5 amended: on an input vector with fewer than 3 entries or
containing a non-finite value the selection policy does not fail fast —
it always returns a Choice, silently; in particular it returns the
default ROCK whenever neither executed comparison is true. -/
theorem claim_C5_amended_no_fail_fast (probs : List JsNum)
    (_h : probs.length < 3 ∨ ∃ x ∈ probs, isJsFinite x = false) :
    (select probs = Choice.ROCK ∨ select probs = Choice.PAPER ∨
      select probs = Choice.SCISSORS) ∧
    (jsGt (probsGet probs 1) (probsGet probs 0) = false →
     jsGt (probsGet probs 2) (probsGet probs 0) = false →
     select probs = Choice.ROCK) := by
  constructor
  · rw [select, selectIndex_eq]
    split_ifs <;> simp [Choice.ofIndex]
  · intro h1 h2
    rw [select, selectIndex_eq, h1, h2]
    rfl

/-- Witness for the C5 amended theorem at the empty probs array. -/
theorem claim_C5_amended_no_fail_fast_witness :
    (([] : List JsNum).length < 3 ∨ ∃ x ∈ ([] : List JsNum), isJsFinite x = false) ∧
    (select [] = Choice.ROCK ∨ select [] = Choice.PAPER ∨
      select [] = Choice.SCISSORS) :=
  ⟨Or.inl (by decide), (claim_C5_amended_no_fail_fast [] (Or.inl (by decide))).1⟩

/-- C6: a play-action submitted while the network has not yet been
constructed (the useState network is still undefined, the
AwaitingNetwork state) throws before any network call is reached: the
call is rejected, the games history is unchanged, and no backward or
forward event is issued. -/
theorem claim_C6_awaiting_network_rejects (σ : Type) (N : Network σ)
    (games : List Game) (p : Choice) :
    playGame N games none p = Except.error JsError.undefinedMethodCall ∧
    gamesAfter games (playGame N games none p) = games ∧
    eventsOf (playGame N games none p) = [] :=
  ⟨rfl, rfl, rfl⟩

/-- C9: the greedy selection loop is total — its result index is always
below 3 and the returned value is always one of ROCK, PAPER, SCISSORS,
for every probs array of any length and contents — and whenever neither
executed comparison probs(i) greater-than probs(best) is true (as on
the empty array, all-NaN arrays or all-equal arrays) it returns ROCK. -/
theorem claim_C9_selection_total_defaults_rock (probs : List JsNum) :
    selectIndex probs < 3 ∧
    (select probs = Choice.ROCK ∨ select probs = Choice.PAPER ∨
      select probs = Choice.SCISSORS) ∧
    (jsGt (probsGet probs 1) (probsGet probs 0) = false →
     jsGt (probsGet probs 2) (probsGet probs 0) = false →
     select probs = Choice.ROCK) := by
  refine ⟨?_, ?_, ?_⟩
  · rw [selectIndex_eq]
    split_ifs <;> norm_num
  · rw [select, selectIndex_eq]
    split_ifs <;> simp [Choice.ofIndex]
  · intro h1 h2
    rw [select, selectIndex_eq, h1, h2]
    rfl

/-- Witness for the C9 theorem at the empty probs array. -/
theorem claim_C9_selection_total_defaults_rock_witness :
    jsGt (probsGet [] 1) (probsGet [] 0) = false ∧
    jsGt (probsGet [] 2) (probsGet [] 0) = false ∧
    select [] = Choice.ROCK :=
  ⟨by decide, by decide,
    (claim_C9_selection_total_defaults_rock []).2.2 (by decide) (by decide)⟩

/-- C7: the games history is append-only — after running any list of
accepted play-actions the history length grew by exactly the number of
actions, the previously recorded games are untouched (the old history
is the unchanged initial segment of the new one), and the game recorded
for the i-th action carries the i-th submitted player choice, in call
order. -/
theorem claim_C7_history_append_only (σ : Type) (N : Network σ) (s : σ)
    (games : List Game) (ps : List Choice) :
    (runPlays N s games ps).1.length = games.length + ps.length ∧
    (runPlays N s games ps).1.take games.length = games ∧
    (∀ i : ℕ,
      ((runPlays N s games ps).1.get? (games.length + i)).map Game.playerChoice =
        ps.get? i) := by
  induction ps generalizing s games with
  | nil =>
    refine ⟨by simp [runPlays], by simp [runPlays], ?_⟩
    intro i
    simp only [runPlays]
    rw [List.get?_eq_none.mpr (by omega)]
    simp
  | cons p ps ih =>
    simp only [runPlays]
    obtain ⟨ih1, ih2, ih3⟩ :=
      ih (play N s p).2.1 (games ++ [Game.mk p (play N s p).1])
    refine ⟨?_, ?_, ?_⟩
    · rw [ih1, List.length_append]
      simp only [List.length_cons, List.length_nil]
      omega
    · have ht : (runPlays N (play N s p).2.1
          (games ++ [Game.mk p (play N s p).1]) ps).1.take games.length =
          ((runPlays N (play N s p).2.1
            (games ++ [Game.mk p (play N s p).1]) ps).1.take
              (games ++ [Game.mk p (play N s p).1]).length).take games.length := by
        rw [List.take_take]
        congr 1
        simp only [List.length_append, List.length_singleton]
        omega
      rw [ht, ih2]
      exact List.take_left games [Game.mk p (play N s p).1]
    · intro i
      cases i with
      | zero =>
        have hlt : games.length < (games ++ [Game.mk p (play N s p).1]).length := by
          simp
        have hget : (runPlays N (play N s p).2.1
            (games ++ [Game.mk p (play N s p).1]) ps).1.get? games.length =
            (games ++ [Game.mk p (play N s p).1]).get? games.length := by
          have h0 := List.get?_take (l := (runPlays N (play N s p).2.1
            (games ++ [Game.mk p (play N s p).1]) ps).1) hlt
          rw [ih2] at h0
          exact h0.symm
        rw [Nat.add_zero, hget, List.get?_append_right (Nat.le_refl _)]
        simp
      | succ i =>
        have h3 := ih3 i
        have hidx : games.length + (i + 1) =
            (games ++ [Game.mk p (play N s p).1]).length + i := by
          simp only [List.length_append, List.length_singleton]
          omega
        rw [hidx, h3]
        simp

end Rpsnn
